import Mathlib

/-!
Shallow embedding of the FloTalk object/runtime core and the flo_scene
message-routing core of the flo_scene repository, together with proofs of
the specified properties.

Pure functions of the source are translated into Lean functions; stateful
code (reference counts, intern tables, filter registries) is translated
into explicit state passing.  Machine integers that only serve as
identifiers (class ids, data handles, signature ids, type ids, filter
handles) are modelled as Nat.
-/

set_option autoImplicit false

/-- Association-list lookup, modelling lookups in the HashMap / sparse-array
containers used by the source (latest insertion wins). -/
def findValue {κ ν : Type} [DecidableEq κ] : List (κ × ν) → κ → Option ν
  | [], _ => none
  | (k, v) :: rest, key => if k = key then some v else findValue rest key

/-- Interned symbol, equality is by id (src/src/flotalk/symbol.rs is not in
the source tree; the spec describes symbols as interned identifiers compared
by id, so a symbol is its id). -/
abbrev TalkSymbol := Nat

/-- A unique ID for a message signature (src/src/flotalk/message.rs,
TalkMessageSignatureId: an integer value underneath). -/
structure TalkMessageSignatureId where
  val : Nat
deriving DecidableEq, Repr

/-- A message signature: Unary(symbol) or Arguments([symbols]) from
src/src/flotalk/message.rs. -/
inductive TalkMessageSignature where
  | Unary : TalkSymbol → TalkMessageSignature
  | Arguments : List TalkSymbol → TalkMessageSignature
deriving DecidableEq, Repr

/-- Modelled from the spec: the error type (src/src/flotalk/error.rs is not
in the source tree).  Only the kinds the claims mention are carried:
MessageNotSupported(signature-id) and RuntimeDropped. -/
inductive TalkError where
  | MessageNotSupported : TalkMessageSignatureId → TalkError
  | RuntimeDropped : TalkError
deriving DecidableEq, Repr

/-- A reference is a pair (class-id, data-handle)
(src/src/flotalk/reference.rs is not in the source tree; the tuple shape
TalkReference(class, handle) is visible in releasable.rs lines 146-152). -/
structure TalkReference where
  classId : Nat
  dataHandle : Nat
deriving DecidableEq, Repr

/-- The tagged value type of FloTalk (the variant list is visible in
TalkValue::clone_in_context, src/src/flotalk/releasable.rs lines 112-128).
The Float payload is an uninterpreted bit pattern: the source only ever
copies it. -/
inductive TalkValue where
  | Nil : TalkValue
  | Bool : Bool → TalkValue
  | Int : Int → TalkValue
  | Float : Nat → TalkValue
  | String : String → TalkValue
  | Character : Char → TalkValue
  | Symbol : TalkSymbol → TalkValue
  | Selector : TalkSymbol → TalkValue
  | Array : List TalkValue → TalkValue
  | Error : TalkError → TalkValue
  | Reference : TalkReference → TalkValue
deriving Repr

/-- A recorded invocation of the per-class add_reference / remove_reference
callbacks, instrumenting the context so that the claims about which
callbacks are invoked can be stated. -/
inductive TalkRefEvent where
  | addReference (classId dataHandle : Nat) : TalkRefEvent
  | removeReference (classId dataHandle : Nat) : TalkRefEvent
deriving DecidableEq, Repr

/-- Modelled from the spec: the per-context state a claim about refcounts
needs (src/src/flotalk/context.rs is not in the source tree).  Spec 4.6: the
context owns per-class state materialized lazily; get_callbacks returns
None when a class is not materialized.  Spec 4.3/4.4: the callbacks
delegate add_reference / remove_reference to the class allocator, which
keeps a refcount per data handle.  The log records every callback
invocation. -/
structure TalkContext where
  materialized : Nat → Bool
  refcount : Nat → Nat → Nat
  log : List TalkRefEvent

/-- Spec 4.6: get_callbacks(class-id) is immutable and returns None if the
class state is not materialized.  The callbacks record itself is opaque
here; the class id stands for it. -/
def TalkContext.get_callbacks (ctx : TalkContext) (classId : Nat) : Option Nat :=
  if ctx.materialized classId then some classId else none

/-- Spec 4.4: add_reference(handle) increments the allocator refcount.  The
invocation is recorded in the log. -/
def TalkContext.addReference (ctx : TalkContext) (classId dataHandle : Nat) : TalkContext :=
  { ctx with
    refcount := fun c h =>
      if c = classId ∧ h = dataHandle then ctx.refcount c h + 1 else ctx.refcount c h,
    log := ctx.log ++ [TalkRefEvent.addReference classId dataHandle] }

/-- Spec 4.4: remove_reference(handle) decrements the allocator refcount.
The invocation is recorded in the log.  The on-zero drop of the instance
data is not modelled: allocator internals are outside the source tree and a
valid reference has refcount at least 1 (spec 3.1), so the drop never fires
on the round trips the claims quantify over. -/
def TalkContext.removeReference (ctx : TalkContext) (classId dataHandle : Nat) : TalkContext :=
  { ctx with
    refcount := fun c h =>
      if c = classId ∧ h = dataHandle then ctx.refcount c h - 1 else ctx.refcount c h,
    log := ctx.log ++ [TalkRefEvent.removeReference classId dataHandle] }

/-- TalkReference::clone_in_context (src/src/flotalk/releasable.rs lines
146-152): copy the (class, handle) pair; call add_reference through the
callbacks only when get_callbacks returns Some. -/
def TalkReference.clone_in_context (self : TalkReference) (context : TalkContext) : TalkReference × TalkContext :=
  let clone := TalkReference.mk self.classId self.dataHandle
  match context.get_callbacks self.classId with
  | some _ => (clone, context.addReference self.classId self.dataHandle)
  | none => (clone, context)

/-- Modelled from the spec: TalkReference::remove_reference
(src/src/flotalk/reference.rs is not in the source tree).  Symmetric to
clone_in_context: delegate to the callbacks when materialized. -/
def TalkReference.remove_reference (self : TalkReference) (context : TalkContext) : TalkContext :=
  match context.get_callbacks self.classId with
  | some _ => context.removeReference self.classId self.dataHandle
  | none => context

mutual

/-- TalkValue::clone_in_context (src/src/flotalk/releasable.rs lines
112-128): primitives are copied, references cloned through the class
callbacks, arrays cloned elementwise. -/
def TalkValue.clone_in_context (self : TalkValue) (context : TalkContext) : TalkValue × TalkContext :=
  match self with
  | .Nil => (.Nil, context)
  | .Reference reference =>
      let (r, context) := reference.clone_in_context context
      (.Reference r, context)
  | .Bool boolean => (.Bool boolean, context)
  | .Int int => (.Int int, context)
  | .Float float => (.Float float, context)
  | .String string => (.String string, context)
  | .Character character => (.Character character, context)
  | .Symbol symbol => (.Symbol symbol, context)
  | .Selector symbol => (.Selector symbol, context)
  | .Array array =>
      let (vals, context) := TalkValue.cloneListInContext array context
      (.Array vals, context)
  | .Error error => (.Error error, context)

/-- Elementwise clone of an array's values, threading the context left to
right (array.iter().map(clone_in_context) in the source). -/
def TalkValue.cloneListInContext (vals : List TalkValue) (context : TalkContext) : List TalkValue × TalkContext :=
  match vals with
  | [] => ([], context)
  | v :: rest =>
      let (v2, context) := v.clone_in_context context
      let (rest2, context) := TalkValue.cloneListInContext rest context
      (v2 :: rest2, context)

end

mutual

/-- Modelled from the spec: TalkValue::remove_reference
(src/src/flotalk/value.rs is not in the source tree).  Spec 3.2: dropping a
value invokes remove_reference on its class; releasing an Array releases
every element; other variants hold no references.  TalkValue's
release_in_context (releasable.rs lines 95-103) delegates here. -/
def TalkValue.release_in_context (self : TalkValue) (context : TalkContext) : TalkContext :=
  match self with
  | .Reference reference => reference.remove_reference context
  | .Array array => TalkValue.releaseListInContext array context
  | _ => context

/-- Release every element of an array, left to right. -/
def TalkValue.releaseListInContext (vals : List TalkValue) (context : TalkContext) : TalkContext :=
  match vals with
  | [] => context
  | v :: rest => TalkValue.releaseListInContext rest (v.release_in_context context)

end

mutual

/-- The references contained in a value, in traversal order (the Reference
variant itself plus, transitively, all Array elements). -/
def TalkValue.refs (self : TalkValue) : List TalkReference :=
  match self with
  | .Reference reference => [reference]
  | .Array array => TalkValue.refsList array
  | _ => []

/-- References contained in a list of values, in order. -/
def TalkValue.refsList (vals : List TalkValue) : List TalkReference :=
  match vals with
  | [] => []
  | v :: rest => v.refs ++ TalkValue.refsList rest

end

/-- Number of occurrences, among a list of references, of references to the
pair (c, h) whose class is materialized: the net refcount change a clone or
release applies at that allocator slot. -/
def refDelta (mat : Nat → Bool) (refs : List TalkReference) (c h : Nat) : Nat :=
  refs.countP (fun r => mat r.classId && (r.classId == c) && (r.dataHandle == h))

/-- The add_reference invocations a clone performs: one per contained
reference whose class is materialized, in traversal order. -/
def addEvents (mat : Nat → Bool) (refs : List TalkReference) : List TalkRefEvent :=
  (refs.filter (fun r => mat r.classId)).map (fun r => TalkRefEvent.addReference r.classId r.dataHandle)

/-- The remove_reference invocations a release performs. -/
def removeEvents (mat : Nat → Bool) (refs : List TalkReference) : List TalkRefEvent :=
  (refs.filter (fun r => mat r.classId)).map (fun r => TalkRefEvent.removeReference r.classId r.dataHandle)

theorem refDelta_append (mat : Nat → Bool) (r1 r2 : List TalkReference) (c h : Nat) :
    refDelta mat (r1 ++ r2) c h = refDelta mat r1 c h + refDelta mat r2 c h := by
  simp [refDelta, List.countP_append]

theorem addEvents_append (mat : Nat → Bool) (r1 r2 : List TalkReference) :
    addEvents mat (r1 ++ r2) = addEvents mat r1 ++ addEvents mat r2 := by
  simp [addEvents, List.filter_append]

theorem removeEvents_append (mat : Nat → Bool) (r1 r2 : List TalkReference) :
    removeEvents mat (r1 ++ r2) = removeEvents mat r1 ++ removeEvents mat r2 := by
  simp [removeEvents, List.filter_append]

theorem refDelta_single (mat : Nat → Bool) (r : TalkReference) (c h : Nat) :
    refDelta mat [r] c h = if mat r.classId = true ∧ r.classId = c ∧ r.dataHandle = h then 1 else 0 := by
  by_cases h1 : mat r.classId = true <;> by_cases h2 : r.classId = c <;>
    by_cases h3 : r.dataHandle = h <;>
    simp [refDelta, List.countP_cons, h1, h2, h3]

theorem TalkContext.get_callbacks_pos {ctx : TalkContext} {classId : Nat}
    (hm : ctx.materialized classId = true) : ctx.get_callbacks classId = some classId := by
  simp [TalkContext.get_callbacks, hm]

theorem TalkContext.get_callbacks_neg {ctx : TalkContext} {classId : Nat}
    (hm : ctx.materialized classId = false) : ctx.get_callbacks classId = none := by
  simp [TalkContext.get_callbacks, hm]

theorem TalkReference.clone_ref_effect (r : TalkReference) (ctx : TalkContext) :
    (r.clone_in_context ctx).1 = r
    ∧ (r.clone_in_context ctx).2.materialized = ctx.materialized
    ∧ (∀ c h, (r.clone_in_context ctx).2.refcount c h = ctx.refcount c h + refDelta ctx.materialized [r] c h)
    ∧ (r.clone_in_context ctx).2.log = ctx.log ++ addEvents ctx.materialized [r] := by
  by_cases hm : ctx.materialized r.classId = true
  · have hcb := TalkContext.get_callbacks_pos hm
    refine ⟨?_, ?_, ?_, ?_⟩
    · simp [TalkReference.clone_in_context, hcb]
    · simp [TalkReference.clone_in_context, hcb, TalkContext.addReference]
    · intro c h
      simp only [TalkReference.clone_in_context, hcb, TalkContext.addReference]
      rw [refDelta_single]
      simp only [hm, true_and]
      split_ifs <;> omega
    · simp [TalkReference.clone_in_context, hcb, TalkContext.addReference, addEvents, hm]
  · have hm' : ctx.materialized r.classId = false := by simpa using hm
    have hcb := TalkContext.get_callbacks_neg hm'
    refine ⟨?_, ?_, ?_, ?_⟩
    · simp [TalkReference.clone_in_context, hcb]
    · simp [TalkReference.clone_in_context, hcb]
    · intro c h
      rw [refDelta_single]
      simp [TalkReference.clone_in_context, hcb, hm']
    · simp [TalkReference.clone_in_context, hcb, addEvents, hm']

theorem TalkReference.remove_effect (r : TalkReference) (ctx : TalkContext) :
    (r.remove_reference ctx).materialized = ctx.materialized
    ∧ (∀ c h, (r.remove_reference ctx).refcount c h = ctx.refcount c h - refDelta ctx.materialized [r] c h)
    ∧ (r.remove_reference ctx).log = ctx.log ++ removeEvents ctx.materialized [r] := by
  by_cases hm : ctx.materialized r.classId = true
  · have hcb := TalkContext.get_callbacks_pos hm
    refine ⟨?_, ?_, ?_⟩
    · simp [TalkReference.remove_reference, hcb, TalkContext.removeReference]
    · intro c h
      simp only [TalkReference.remove_reference, hcb, TalkContext.removeReference]
      rw [refDelta_single]
      simp only [hm, true_and]
      split_ifs <;> omega
    · simp [TalkReference.remove_reference, hcb, TalkContext.removeReference, removeEvents, hm]
  · have hm' : ctx.materialized r.classId = false := by simpa using hm
    have hcb := TalkContext.get_callbacks_neg hm'
    refine ⟨?_, ?_, ?_⟩
    · simp [TalkReference.remove_reference, hcb]
    · intro c h
      rw [refDelta_single]
      simp [TalkReference.remove_reference, hcb, hm']
    · simp [TalkReference.remove_reference, hcb, removeEvents, hm']

mutual

theorem TalkValue.clone_effect (v : TalkValue) (ctx : TalkContext) :
    (v.clone_in_context ctx).1 = v
    ∧ (v.clone_in_context ctx).2.materialized = ctx.materialized
    ∧ (∀ c h, (v.clone_in_context ctx).2.refcount c h = ctx.refcount c h + refDelta ctx.materialized v.refs c h)
    ∧ (v.clone_in_context ctx).2.log = ctx.log ++ addEvents ctx.materialized v.refs := by
  match v with
  | .Nil => simp [TalkValue.clone_in_context, TalkValue.refs, refDelta, addEvents]
  | .Bool b => simp [TalkValue.clone_in_context, TalkValue.refs, refDelta, addEvents]
  | .Int i => simp [TalkValue.clone_in_context, TalkValue.refs, refDelta, addEvents]
  | .Float f => simp [TalkValue.clone_in_context, TalkValue.refs, refDelta, addEvents]
  | .String s => simp [TalkValue.clone_in_context, TalkValue.refs, refDelta, addEvents]
  | .Character c => simp [TalkValue.clone_in_context, TalkValue.refs, refDelta, addEvents]
  | .Symbol s => simp [TalkValue.clone_in_context, TalkValue.refs, refDelta, addEvents]
  | .Selector s => simp [TalkValue.clone_in_context, TalkValue.refs, refDelta, addEvents]
  | .Error e => simp [TalkValue.clone_in_context, TalkValue.refs, refDelta, addEvents]
  | .Reference r =>
    have h := TalkReference.clone_ref_effect r ctx
    simpa [TalkValue.clone_in_context, TalkValue.refs] using h
  | .Array a =>
    have h := TalkValue.cloneList_effect a ctx
    simpa [TalkValue.clone_in_context, TalkValue.refs] using h

theorem TalkValue.cloneList_effect (vs : List TalkValue) (ctx : TalkContext) :
    (TalkValue.cloneListInContext vs ctx).1 = vs
    ∧ (TalkValue.cloneListInContext vs ctx).2.materialized = ctx.materialized
    ∧ (∀ c h, (TalkValue.cloneListInContext vs ctx).2.refcount c h = ctx.refcount c h + refDelta ctx.materialized (TalkValue.refsList vs) c h)
    ∧ (TalkValue.cloneListInContext vs ctx).2.log = ctx.log ++ addEvents ctx.materialized (TalkValue.refsList vs) := by
  match vs with
  | [] => simp [TalkValue.cloneListInContext, TalkValue.refsList, refDelta, addEvents]
  | v :: rest =>
    have h1 := TalkValue.clone_effect v ctx
    have h2 := TalkValue.cloneList_effect rest (v.clone_in_context ctx).2
    obtain ⟨hfst1, hmat1, hrc1, hlog1⟩ := h1
    obtain ⟨hfst2, hmat2, hrc2, hlog2⟩ := h2
    refine ⟨?_, ?_, ?_, ?_⟩
    · simp [TalkValue.cloneListInContext, hfst1, hfst2]
    · simp [TalkValue.cloneListInContext, hmat2, hmat1]
    · intro c h
      simp only [TalkValue.cloneListInContext, TalkValue.refsList]
      rw [hrc2, hrc1, hmat1, refDelta_append]
      omega
    · simp only [TalkValue.cloneListInContext, TalkValue.refsList]
      rw [hlog2, hlog1, hmat1, addEvents_append, List.append_assoc]

end

mutual

theorem TalkValue.release_effect (v : TalkValue) (ctx : TalkContext) :
    (v.release_in_context ctx).materialized = ctx.materialized
    ∧ (∀ c h, (v.release_in_context ctx).refcount c h = ctx.refcount c h - refDelta ctx.materialized v.refs c h)
    ∧ (v.release_in_context ctx).log = ctx.log ++ removeEvents ctx.materialized v.refs := by
  match v with
  | .Nil => simp [TalkValue.release_in_context, TalkValue.refs, refDelta, removeEvents]
  | .Bool b => simp [TalkValue.release_in_context, TalkValue.refs, refDelta, removeEvents]
  | .Int i => simp [TalkValue.release_in_context, TalkValue.refs, refDelta, removeEvents]
  | .Float f => simp [TalkValue.release_in_context, TalkValue.refs, refDelta, removeEvents]
  | .String s => simp [TalkValue.release_in_context, TalkValue.refs, refDelta, removeEvents]
  | .Character c => simp [TalkValue.release_in_context, TalkValue.refs, refDelta, removeEvents]
  | .Symbol s => simp [TalkValue.release_in_context, TalkValue.refs, refDelta, removeEvents]
  | .Selector s => simp [TalkValue.release_in_context, TalkValue.refs, refDelta, removeEvents]
  | .Error e => simp [TalkValue.release_in_context, TalkValue.refs, refDelta, removeEvents]
  | .Reference r =>
    have h := TalkReference.remove_effect r ctx
    simpa [TalkValue.release_in_context, TalkValue.refs] using h
  | .Array a =>
    have h := TalkValue.releaseList_effect a ctx
    simpa [TalkValue.release_in_context, TalkValue.refs] using h

theorem TalkValue.releaseList_effect (vs : List TalkValue) (ctx : TalkContext) :
    (TalkValue.releaseListInContext vs ctx).materialized = ctx.materialized
    ∧ (∀ c h, (TalkValue.releaseListInContext vs ctx).refcount c h = ctx.refcount c h - refDelta ctx.materialized (TalkValue.refsList vs) c h)
    ∧ (TalkValue.releaseListInContext vs ctx).log = ctx.log ++ removeEvents ctx.materialized (TalkValue.refsList vs) := by
  match vs with
  | [] => simp [TalkValue.releaseListInContext, TalkValue.refsList, refDelta, removeEvents]
  | v :: rest =>
    have h1 := TalkValue.release_effect v ctx
    have h2 := TalkValue.releaseList_effect rest (v.release_in_context ctx)
    obtain ⟨hmat1, hrc1, hlog1⟩ := h1
    obtain ⟨hmat2, hrc2, hlog2⟩ := h2
    refine ⟨?_, ?_, ?_⟩
    · simp [TalkValue.releaseListInContext, hmat2, hmat1]
    · intro c h
      simp only [TalkValue.releaseListInContext, TalkValue.refsList]
      rw [hrc2, hrc1, hmat1, refDelta_append]
      omega
    · simp only [TalkValue.releaseListInContext, TalkValue.refsList]
      rw [hlog2, hlog1, hmat1, removeEvents_append, List.append_assoc]

end

theorem mem_addEvents {mat : Nat → Bool} {refs : List TalkReference} {r : TalkReference}
    (h1 : r ∈ refs) (h2 : mat r.classId = true) :
    TalkRefEvent.addReference r.classId r.dataHandle ∈ addEvents mat refs := by
  simp only [addEvents, List.mem_map, List.mem_filter]
  exact ⟨r, ⟨h1, h2⟩, rfl⟩

theorem mem_removeEvents {mat : Nat → Bool} {refs : List TalkReference} {r : TalkReference}
    (h1 : r ∈ refs) (h2 : mat r.classId = true) :
    TalkRefEvent.removeReference r.classId r.dataHandle ∈ removeEvents mat refs := by
  simp only [removeEvents, List.mem_map, List.mem_filter]
  exact ⟨r, ⟨h1, h2⟩, rfl⟩

/-- A context where no class has its per-context callbacks materialized. -/
def ctxUnmaterialized : TalkContext :=
  { materialized := fun _ => false, refcount := fun _ _ => 1, log := [] }

/-- A context where every class has its per-context callbacks materialized. -/
def ctxMaterialized : TalkContext :=
  { materialized := fun _ => true, refcount := fun _ _ => 1, log := [] }

/-- C1 counterexample: cloning the value Reference(0, 0) in a context where
class 0 has no materialized callbacks invokes add_reference on nothing at
all (the callback log stays empty), although the value does contain a
reference, so the clone half of the claim fails as stated. -/
theorem talkValue_clone_no_add_reference_counterexample :
    (TalkValue.clone_in_context (TalkValue.Reference ⟨0, 0⟩) ctxUnmaterialized).2.log = []
    ∧ TalkValue.refs (TalkValue.Reference ⟨0, 0⟩) = [⟨0, 0⟩] := by
  constructor
  · simp [TalkValue.clone_in_context, TalkReference.clone_in_context,
      TalkContext.get_callbacks, ctxUnmaterialized]
  · simp [TalkValue.refs]

/-- C1 (amended): for every value v and context C, cloning v in C and then
releasing the clone restores the refcount of every class allocator slot
exactly; the clone invokes add_reference, and the release remove_reference,
on every reference contained in v (transitively through arrays) whose class
callbacks are materialized in C. -/
theorem talkValue_clone_release_round_trip (v : TalkValue) (ctx : TalkContext) :
    (∀ c h, (TalkValue.release_in_context (v.clone_in_context ctx).1 (v.clone_in_context ctx).2).refcount c h = ctx.refcount c h)
    ∧ (∀ r, r ∈ v.refs → ctx.materialized r.classId = true →
        TalkRefEvent.addReference r.classId r.dataHandle ∈ (v.clone_in_context ctx).2.log)
    ∧ (∀ r, r ∈ v.refs → ctx.materialized r.classId = true →
        TalkRefEvent.removeReference r.classId r.dataHandle ∈ (TalkValue.release_in_context (v.clone_in_context ctx).1 (v.clone_in_context ctx).2).log) := by
  obtain ⟨hfst, hmat, hrc, hlog⟩ := TalkValue.clone_effect v ctx
  obtain ⟨hmat2, hrc2, hlog2⟩ := TalkValue.release_effect (v.clone_in_context ctx).1 (v.clone_in_context ctx).2
  refine ⟨?_, ?_, ?_⟩
  · intro c h
    rw [hrc2, hrc, hfst, hmat]
    omega
  · intro r hr hm
    rw [hlog]
    exact List.mem_append_right _ (mem_addEvents hr hm)
  · intro r hr hm
    rw [hlog2, hfst, hmat]
    exact List.mem_append_right _ (mem_removeEvents hr hm)

/-- Closed witness for the amended C1 theorem: with class 0 materialized,
cloning Reference(0, 0) records an add_reference invocation for it. -/
theorem talkValue_clone_release_round_trip_witness :
    TalkRefEvent.addReference 0 0 ∈ ((TalkValue.Reference ⟨0, 0⟩).clone_in_context ctxMaterialized).2.log :=
  (talkValue_clone_release_round_trip (TalkValue.Reference ⟨0, 0⟩) ctxMaterialized).2.1
    ⟨0, 0⟩ (by simp [TalkValue.refs]) rfl

/-- C9: cloning a TalkReference in a context increments the refcount of its
handle only when the per-context callbacks of its class are materialized;
when get_callbacks returns None the clone is returned with the context
completely unchanged (no refcount change, no add_reference invocation, no
error), and when it returns Some the refcount is incremented and
add_reference is invoked. -/
theorem talkReference_clone_in_context_unmaterialized (r : TalkReference) (ctx : TalkContext) :
    (ctx.get_callbacks r.classId = none → r.clone_in_context ctx = (r, ctx))
    ∧ (∀ cb, ctx.get_callbacks r.classId = some cb →
        (r.clone_in_context ctx).2.refcount r.classId r.dataHandle = ctx.refcount r.classId r.dataHandle + 1
        ∧ TalkRefEvent.addReference r.classId r.dataHandle ∈ (r.clone_in_context ctx).2.log) := by
  constructor
  · intro hnone
    simp [TalkReference.clone_in_context, hnone]
  · intro cb hsome
    constructor
    · simp [TalkReference.clone_in_context, hsome, TalkContext.addReference]
    · simp [TalkReference.clone_in_context, hsome, TalkContext.addReference]

/-- Closed witness for C9: in a context with no materialized callbacks,
cloning Reference(3, 4) returns the clone and leaves the context unchanged. -/
theorem talkReference_clone_in_context_unmaterialized_witness :
    TalkReference.clone_in_context ⟨3, 4⟩ ctxUnmaterialized = (⟨3, 4⟩, ctxUnmaterialized) :=
  (talkReference_clone_in_context_unmaterialized ⟨3, 4⟩ ctxUnmaterialized).1 rfl

/-- Poll result of a future, mirroring futures::task::Poll. -/
inductive TalkPoll (α : Type) where
  | ready : α → TalkPoll α
  | pending : TalkPoll α
deriving DecidableEq, Repr

/-- Modelled from the spec: the three-variant continuation (spec 4.5;
src/src/flotalk/continuation.rs is not in the source tree).  Ready carries
the finished value; Soon needs synchronous mutable access to the context
for one bounded step (runtime.rs line 101 shows the Soon body producing a
value directly); Later is a poll function run while holding the context
lock. -/
inductive TalkContinuation where
  | Ready : TalkValue → TalkContinuation
  | Soon : (TalkContext → TalkValue × TalkContext) → TalkContinuation
  | Later : (TalkContext → TalkPoll TalkValue × TalkContext) → TalkContinuation

/-- A flotalk message: Unary(signature-id) or WithArguments(signature-id,
arguments) (src/src/flotalk/message.rs lines 26-32). -/
inductive TalkMessage where
  | Unary : TalkMessageSignatureId → TalkMessage
  | WithArguments : TalkMessageSignatureId → List TalkValue → TalkMessage

/-- The signature id carried by a message (used by the dispatch table,
dispatch_table.rs lines 95 and 110). -/
def TalkMessage.signature_id : TalkMessage → TalkMessageSignatureId
  | .Unary id => id
  | .WithArguments id _ => id

/-- The argument list of a message: empty for a unary message
(dispatch_table.rs lines 96 and 111; the TalkOwned ownership wrapper around
the arguments is modelled as the plain list). -/
def TalkMessage.to_arguments : TalkMessage → List TalkValue
  | .Unary _ => []
  | .WithArguments _ args => args

/-- Modelled from the spec: the sparse array keyed by signature id
(src/src/flotalk/sparse_array.rs is not in the source tree; spec 4.2 calls
it a sparse array indexed by signature-id).  Insertion prepends, lookup
returns the latest binding. -/
structure TalkSparseArray (α : Type) where
  entries : List (Nat × α)

/-- An empty sparse array. -/
def TalkSparseArray.empty {α : Type} : TalkSparseArray α := ⟨[]⟩

/-- Lookup at a position. -/
def TalkSparseArray.get {α : Type} (arr : TalkSparseArray α) (pos : Nat) : Option α :=
  findValue arr.entries pos

/-- Insert at a position (replacing any previous binding). -/
def TalkSparseArray.insert {α : Type} (arr : TalkSparseArray α) (pos : Nat) (val : α) : TalkSparseArray α :=
  ⟨(pos, val) :: arr.entries⟩

/-- The shape of a dispatch-table action: (receiver data, owned arguments,
context) → continuation (dispatch_table.rs line 20). -/
def TalkAction (TDataType : Type) : Type :=
  TDataType → List TalkValue → TalkContext → TalkContinuation

/-- The default not-supported fallback installed by
TalkMessageDispatchTable::empty (dispatch_table.rs line 33): return a
MessageNotSupported error for the signature id. -/
def talkDefaultNotSupported (TDataType : Type) :
    TDataType → TalkMessageSignatureId → List TalkValue → TalkContext → TalkContinuation :=
  fun _ id _ _ => TalkContinuation.Ready (TalkValue.Error (TalkError.MessageNotSupported id))

/-- TalkMessageDispatchTable (dispatch_table.rs lines 18-24): sparse array
from signature id to action, plus the not-supported fallback. -/
structure TalkMessageDispatchTable (TDataType : Type) where
  message_action : TalkSparseArray (TalkAction TDataType)
  not_supported : TDataType → TalkMessageSignatureId → List TalkValue → TalkContext → TalkContinuation

/-- TalkMessageDispatchTable::empty (dispatch_table.rs lines 30-35). -/
def TalkMessageDispatchTable.empty {TDataType : Type} : TalkMessageDispatchTable TDataType :=
  { message_action := TalkSparseArray.empty,
    not_supported := talkDefaultNotSupported TDataType }

/-- TalkMessageDispatchTable::define_message (dispatch_table.rs lines
123-125). -/
def TalkMessageDispatchTable.define_message {TDataType : Type}
    (table : TalkMessageDispatchTable TDataType) (message : TalkMessageSignatureId)
    (action : TalkAction TDataType) : TalkMessageDispatchTable TDataType :=
  { table with message_action := table.message_action.insert message.val action }

/-- TalkMessageDispatchTable::send_message (dispatch_table.rs lines
94-103): look up the action for the signature id; invoke the not-supported
fallback when absent. -/
def TalkMessageDispatchTable.send_message {TDataType : Type}
    (table : TalkMessageDispatchTable TDataType) (target : TDataType)
    (message : TalkMessage) (talk_context : TalkContext) : TalkContinuation :=
  let id := message.signature_id
  let args := message.to_arguments
  match table.message_action.get id.val with
  | some action => action target args talk_context
  | none => table.not_supported target id args talk_context

/-- TalkMessageDispatchTable::try_send_message (dispatch_table.rs lines
109-118): None when no action is bound for the signature id. -/
def TalkMessageDispatchTable.try_send_message {TDataType : Type}
    (table : TalkMessageDispatchTable TDataType) (target : TDataType)
    (message : TalkMessage) (talk_context : TalkContext) : Option TalkContinuation :=
  let id := message.signature_id
  let args := message.to_arguments
  match table.message_action.get id.val with
  | some action => some (action target args talk_context)
  | none => none

/-- C2: for a dispatch table with no action bound for a message's
signature id, send_message invokes the not-supported fallback, which with
the default fallback yields a continuation that is already resolved to
Error(MessageNotSupported(signature-id)); try_send_message returns None,
and returns Some of the dispatched continuation whenever an action is
bound. -/
theorem dispatch_table_not_supported {TData : Type} (table : TalkMessageDispatchTable TData)
    (target : TData) (message : TalkMessage) (ctx : TalkContext)
    (hnone : table.message_action.get message.signature_id.val = none) :
    table.send_message target message ctx
      = table.not_supported target message.signature_id message.to_arguments ctx
    ∧ (table.not_supported = talkDefaultNotSupported TData →
        table.send_message target message ctx
          = TalkContinuation.Ready (TalkValue.Error (TalkError.MessageNotSupported message.signature_id)))
    ∧ table.try_send_message target message ctx = none
    ∧ (∀ (table2 : TalkMessageDispatchTable TData) (message2 : TalkMessage) (action : TalkAction TData),
        table2.message_action.get message2.signature_id.val = some action →
        table2.try_send_message target message2 ctx
          = some (action target message2.to_arguments ctx)) := by
  refine ⟨?_, ?_, ?_, ?_⟩
  · simp [TalkMessageDispatchTable.send_message, hnone]
  · intro hdef
    simp [TalkMessageDispatchTable.send_message, hnone, hdef, talkDefaultNotSupported]
  · simp [TalkMessageDispatchTable.try_send_message, hnone]
  · intro table2 message2 action hsome
    simp [TalkMessageDispatchTable.try_send_message, hsome]

/-- Closed witness for C2: the empty table resolves an unbound unary
message to the MessageNotSupported error and try_send_message returns
None. -/
theorem dispatch_table_not_supported_witness :
    (TalkMessageDispatchTable.empty : TalkMessageDispatchTable Unit).send_message () (TalkMessage.Unary ⟨5⟩) ctxUnmaterialized
      = TalkContinuation.Ready (TalkValue.Error (TalkError.MessageNotSupported ⟨5⟩))
    ∧ (TalkMessageDispatchTable.empty : TalkMessageDispatchTable Unit).try_send_message () (TalkMessage.Unary ⟨5⟩) ctxUnmaterialized
      = none :=
  ⟨(dispatch_table_not_supported TalkMessageDispatchTable.empty () (TalkMessage.Unary ⟨5⟩) ctxUnmaterialized rfl).2.1 rfl,
   (dispatch_table_not_supported TalkMessageDispatchTable.empty () (TalkMessage.Unary ⟨5⟩) ctxUnmaterialized rfl).2.2.1⟩

/-- The Now / Later split computed by TalkRuntime::run_continuation
(runtime.rs lines 89-103): Ready values complete immediately, Soon and
Later continuations go through run_continuation_later. -/
inductive NowLater (β : Type) where
  | Now : TalkValue → NowLater β
  | Later : β → NowLater β

/-- One poll of the future built by TalkRuntime::run_continuation_later
(runtime.rs lines 43-82): if the weak reference to the runtime's context no
longer upgrades, complete with Error(RuntimeDropped); otherwise run the
later body with the context (lock acquisition, lines 52-74, is modelled as
immediate success; contention only postpones the same outcome). -/
def run_continuation_later_poll (weak_context : Option TalkContext)
    (later : TalkContext → TalkPoll TalkValue × TalkContext) :
    TalkPoll TalkValue × Option TalkContext :=
  match weak_context with
  | some talk_context =>
      let (result, talk_context) := later talk_context
      (result, some talk_context)
  | none => (TalkPoll.ready (TalkValue.Error TalkError.RuntimeDropped), none)

/-- TalkRuntime::run_continuation (runtime.rs lines 88-111): Ready values
become NowLater::Now and are returned without touching the runtime; Soon is
wrapped into a later body that runs it to completion in one poll; Later is
polled as is. -/
def TalkRuntime.run_continuation (continuation : TalkContinuation) :
    NowLater (TalkContext → TalkPoll TalkValue × TalkContext) :=
  match continuation with
  | .Ready value => .Now value
  | .Later later => .Later later
  | .Soon soon => .Later (fun talk_context =>
      let (value, talk_context) := soon talk_context
      (TalkPoll.ready value, talk_context))

/-- A poll of the future returned by run_continuation at a moment when the
runtime (and hence its context) has been dropped: the Now case yields the
stored value (runtime.rs line 107), the Later case polls
run_continuation_later with a dead weak reference. -/
def pollAfterRuntimeDropped
    (now_later : NowLater (TalkContext → TalkPoll TalkValue × TalkContext)) : TalkPoll TalkValue :=
  match now_later with
  | .Now value => TalkPoll.ready value
  | .Later later => (run_continuation_later_poll none later).1

/-- C4 counterexample: the future produced by run_continuation for the
already-ready continuation Ready(Int 42) completes with Int 42 even when
polled after the runtime has been dropped, not with
Error(RuntimeDropped). -/
theorem run_continuation_ready_after_drop_counterexample :
    pollAfterRuntimeDropped (TalkRuntime.run_continuation (TalkContinuation.Ready (TalkValue.Int 42)))
      = TalkPoll.ready (TalkValue.Int 42)
    ∧ TalkValue.Int 42 ≠ TalkValue.Error TalkError.RuntimeDropped := by
  constructor
  · rfl
  · intro h
    exact TalkValue.noConfusion h

/-- C4 (amended): for every continuation with a Soon or Later part, once
the runtime has been dropped every poll of the future produced by
run_continuation completes with Error(RuntimeDropped) (and the dead weak
reference stays dead, so all subsequent polls give the same result); a
Ready continuation's future instead completes with its stored value. -/
theorem run_continuation_runtime_dropped (c : TalkContinuation)
    (h : ∀ v, c ≠ TalkContinuation.Ready v) :
    pollAfterRuntimeDropped (TalkRuntime.run_continuation c)
      = TalkPoll.ready (TalkValue.Error TalkError.RuntimeDropped)
    ∧ (∀ later, run_continuation_later_poll none later
        = (TalkPoll.ready (TalkValue.Error TalkError.RuntimeDropped), none)) := by
  refine ⟨?_, fun _ => rfl⟩
  cases c with
  | Ready v => exact absurd rfl (h v)
  | Soon f => rfl
  | Later f => rfl

/-- Closed witness for the amended C4 theorem at a concrete Soon
continuation. -/
theorem run_continuation_runtime_dropped_witness :
    pollAfterRuntimeDropped (TalkRuntime.run_continuation (TalkContinuation.Soon (fun ctx => (TalkValue.Nil, ctx))))
      = TalkPoll.ready (TalkValue.Error TalkError.RuntimeDropped) :=
  (run_continuation_runtime_dropped (TalkContinuation.Soon (fun ctx => (TalkValue.Nil, ctx)))
    (fun _ h => TalkContinuation.noConfusion h)).1

theorem findValue_cons {κ ν : Type} [DecidableEq κ] (k : κ) (v : ν) (rest : List (κ × ν)) (key : κ) :
    findValue ((k, v) :: rest) key = if k = key then some v else findValue rest key := rfl

/-- The process-wide signature intern state (message.rs lines 11-20):
NEXT_SIGNATURE_ID plus the two HashMaps ID_FOR_SIGNATURE and
SIGNATURE_FOR_ID, modelled as association lists whose lookup returns the
latest insertion. -/
structure SignatureRegistry where
  nextSignatureId : Nat
  idForSignature : List (TalkMessageSignature × TalkMessageSignatureId)
  signatureForId : List (TalkMessageSignatureId × TalkMessageSignature)

/-- TalkMessageSignature::id (message.rs lines 92-117): return the id
already recorded for this signature, or allocate the next id, advance the
counter and record the pair in both maps. -/
def TalkMessageSignature.id (self : TalkMessageSignature) (reg : SignatureRegistry) :
    TalkMessageSignatureId × SignatureRegistry :=
  match findValue reg.idForSignature self with
  | some id => (id, reg)
  | none =>
      let new_id : TalkMessageSignatureId := ⟨reg.nextSignatureId⟩
      (new_id,
        { nextSignatureId := reg.nextSignatureId + 1,
          idForSignature := (self, new_id) :: reg.idForSignature,
          signatureForId := (new_id, self) :: reg.signatureForId })

/-- TalkMessageSignatureId::to_signature (message.rs lines 195-197); the
source unwraps the map entry, the model returns the Option it looks up. -/
def TalkMessageSignatureId.to_signature (self : TalkMessageSignatureId) (reg : SignatureRegistry) :
    Option TalkMessageSignature :=
  findValue reg.signatureForId self

/-- Interning a sequence of signatures one after another: the registry
evolution over a process lifetime. -/
def internAll (sigs : List TalkMessageSignature) (reg : SignatureRegistry) : SignatureRegistry :=
  sigs.foldl (fun r s => (s.id r).2) reg

/-- Well-formedness of the intern state: the two maps are mutually inverse
and every assigned id is below the next free id.  The empty initial state
is well formed and interning preserves it. -/
structure SignatureRegistry.WF (reg : SignatureRegistry) : Prop where
  id_lt : ∀ s i, findValue reg.idForSignature s = some i → i.val < reg.nextSignatureId
  sig_then_id : ∀ s i, findValue reg.idForSignature s = some i →
    findValue reg.signatureForId i = some s
  id_then_sig : ∀ i s, findValue reg.signatureForId i = some s →
    findValue reg.idForSignature s = some i
  id_lt_of_sig : ∀ i s, findValue reg.signatureForId i = some s → i.val < reg.nextSignatureId

theorem intern_lookup_self (reg : SignatureRegistry) (s : TalkMessageSignature) :
    findValue ((s.id reg).2).idForSignature s = some ((s.id reg).1) := by
  cases hf : findValue reg.idForSignature s with
  | some i => simp [TalkMessageSignature.id, hf]
  | none => simp [TalkMessageSignature.id, hf, findValue_cons]

theorem intern_found {reg : SignatureRegistry} {s : TalkMessageSignature}
    {i : TalkMessageSignatureId} (h : findValue reg.idForSignature s = some i) :
    s.id reg = (i, reg) := by
  simp [TalkMessageSignature.id, h]

theorem intern_new {reg : SignatureRegistry} {s : TalkMessageSignature}
    (h : findValue reg.idForSignature s = none) :
    s.id reg = (⟨reg.nextSignatureId⟩,
      { nextSignatureId := reg.nextSignatureId + 1,
        idForSignature := (s, ⟨reg.nextSignatureId⟩) :: reg.idForSignature,
        signatureForId := (⟨reg.nextSignatureId⟩, s) :: reg.signatureForId }) := by
  simp [TalkMessageSignature.id, h]

theorem intern_wf {reg : SignatureRegistry} (hwf : reg.WF) (s : TalkMessageSignature) :
    ((s.id reg).2).WF := by
  cases hf : findValue reg.idForSignature s with
  | some i =>
    rw [intern_found hf]
    exact hwf
  | none =>
    rw [intern_new hf]
    constructor
    · intro s' i' h'
      rw [findValue_cons] at h'
      show i'.val < reg.nextSignatureId + 1
      by_cases hs : s = s'
      · rw [if_pos hs] at h'
        injection h' with h''
        rw [← h'']
        exact Nat.lt_succ_self _
      · rw [if_neg hs] at h'
        have := hwf.id_lt s' i' h'
        omega
    · intro s' i' h'
      rw [findValue_cons] at h'
      rw [findValue_cons]
      by_cases hs : s = s'
      · rw [if_pos hs] at h'
        injection h' with h''
        rw [← h'', if_pos rfl, hs]
      · rw [if_neg hs] at h'
        have hold := hwf.sig_then_id s' i' h'
        have hne : (⟨reg.nextSignatureId⟩ : TalkMessageSignatureId) ≠ i' := by
          have := hwf.id_lt s' i' h'
          intro hcontra
          rw [← hcontra] at this
          simp at this
        rw [if_neg hne]
        exact hold
    · intro i' s' h'
      rw [findValue_cons] at h'
      rw [findValue_cons]
      by_cases hi : (⟨reg.nextSignatureId⟩ : TalkMessageSignatureId) = i'
      · rw [if_pos hi] at h'
        injection h' with h''
        rw [← h'', if_pos rfl, hi]
      · rw [if_neg hi] at h'
        have hold := hwf.id_then_sig i' s' h'
        have hne : s ≠ s' := by
          intro hcontra
          rw [← hcontra] at hold
          rw [hf] at hold
          exact Option.noConfusion hold
        rw [if_neg hne]
        exact hold
    · intro i' s' h'
      rw [findValue_cons] at h'
      show i'.val < reg.nextSignatureId + 1
      by_cases hi : (⟨reg.nextSignatureId⟩ : TalkMessageSignatureId) = i'
      · rw [← hi]
        exact Nat.lt_succ_self _
      · rw [if_neg hi] at h'
        have := hwf.id_lt_of_sig i' s' h'
        omega

theorem intern_roundtrip {reg : SignatureRegistry} (hwf : reg.WF) (s : TalkMessageSignature) :
    ((s.id reg).1).to_signature ((s.id reg).2) = some s := by
  cases hf : findValue reg.idForSignature s with
  | some i =>
    rw [intern_found hf]
    exact hwf.sig_then_id s i hf
  | none =>
    rw [intern_new hf]
    simp [TalkMessageSignatureId.to_signature, findValue_cons]

theorem intern_preserves_sig {reg : SignatureRegistry} (hwf : reg.WF) (s : TalkMessageSignature)
    {i : TalkMessageSignatureId} {sig0 : TalkMessageSignature}
    (h : findValue reg.signatureForId i = some sig0) :
    findValue ((s.id reg).2).signatureForId i = some sig0 := by
  cases hf : findValue reg.idForSignature s with
  | some j =>
    rw [intern_found hf]
    exact h
  | none =>
    have hne : (⟨reg.nextSignatureId⟩ : TalkMessageSignatureId) ≠ i := by
      have := hwf.id_lt_of_sig i sig0 h
      intro hcontra
      rw [← hcontra] at this
      simp at this
    rw [intern_new hf]
    rw [findValue_cons, if_neg hne]
    exact h

theorem internAll_preserves {reg : SignatureRegistry} (hwf : reg.WF)
    (sigs : List TalkMessageSignature) {i : TalkMessageSignatureId}
    {sig0 : TalkMessageSignature} (h : findValue reg.signatureForId i = some sig0) :
    findValue (internAll sigs reg).signatureForId i = some sig0 := by
  induction sigs generalizing reg with
  | nil => exact h
  | cons s rest ih =>
    exact ih (intern_wf hwf s) (intern_preserves_sig hwf s h)

theorem intern_inj {reg : SignatureRegistry} (hwf : reg.WF) (s1 s2 : TalkMessageSignature) :
    ((s2.id ((s1.id reg).2)).1 = (s1.id reg).1) ↔ s1 = s2 := by
  have hwf1 : ((s1.id reg).2).WF := intern_wf hwf s1
  have h1self := intern_lookup_self reg s1
  cases hf2 : findValue ((s1.id reg).2).idForSignature s2 with
  | some i2 =>
    have hfst : (s2.id ((s1.id reg).2)).1 = i2 := by rw [intern_found hf2]
    rw [hfst]
    constructor
    · intro heq
      have ha := hwf1.sig_then_id s2 i2 hf2
      have hb := hwf1.sig_then_id s1 ((s1.id reg).1) h1self
      rw [heq] at ha
      rw [ha] at hb
      injection hb with hb'
      exact hb'.symm
    · intro heq
      rw [← heq] at hf2
      rw [h1self] at hf2
      injection hf2 with hf2'
      exact hf2'.symm
  | none =>
    have hfst : (s2.id ((s1.id reg).2)).1 = ⟨((s1.id reg).2).nextSignatureId⟩ := by
      rw [intern_new hf2]
    constructor
    · intro heq
      exfalso
      have hlt := hwf1.id_lt s1 ((s1.id reg).1) h1self
      rw [hfst] at heq
      rw [← heq] at hlt
      simp at hlt
    · intro heq
      exfalso
      rw [← heq] at hf2
      rw [h1self] at hf2
      exact Option.noConfusion hf2

/-- C3: interning a signature and looking the id back up returns the same
signature; interning two signatures (in sequence, over the same evolving
registry) yields equal ids exactly when the signatures are equal; and an
id already recorded keeps mapping to the same signature across any further
sequence of interning operations (stability for the process lifetime). -/
theorem signature_interning (reg : SignatureRegistry) (hwf : reg.WF)
    (s s1 s2 : TalkMessageSignature) (i : TalkMessageSignatureId)
    (sig0 : TalkMessageSignature) (sigs : List TalkMessageSignature) :
    ((s.id reg).1.to_signature ((s.id reg).2) = some s)
    ∧ (((s2.id ((s1.id reg).2)).1 = (s1.id reg).1) ↔ s1 = s2)
    ∧ (findValue reg.signatureForId i = some sig0 →
        findValue (internAll sigs reg).signatureForId i = some sig0) :=
  ⟨intern_roundtrip hwf s, intern_inj hwf s1 s2, fun h => internAll_preserves hwf sigs h⟩

/-- The initial empty intern state (message.rs lines 11-20: counter 0 and
two empty maps). -/
def emptySignatureRegistry : SignatureRegistry := ⟨0, [], []⟩

theorem emptySignatureRegistry_wf : emptySignatureRegistry.WF := by
  constructor <;> intro a b h <;> simp [emptySignatureRegistry, findValue] at h

/-- Closed witness for C3 at the empty registry and the signature
Unary(0). -/
theorem signature_interning_witness :
    ((TalkMessageSignature.Unary 0).id emptySignatureRegistry).1.to_signature
        (((TalkMessageSignature.Unary 0).id emptySignatureRegistry).2)
      = some (TalkMessageSignature.Unary 0) :=
  (signature_interning emptySignatureRegistry emptySignatureRegistry_wf
    (TalkMessageSignature.Unary 0) (TalkMessageSignature.Unary 0)
    (TalkMessageSignature.Unary 1) ⟨0⟩ (TalkMessageSignature.Unary 0) []).1

/-- One step of the error-pruning loop of EventSubscribers::send
(subscription.rs lines 72-80), indexed form: a successful send sets the
sent-successfully flag, a failed send removes the subscriber at that
index. -/
def sendStep {α : Type} (sendOk : Nat → Bool) (acc : List α × Bool) (idx : Nat) : List α × Bool :=
  if sendOk idx then (acc.1, true) else (acc.1.eraseIdx idx, acc.2)

/-- The per-subscriber messages produced by EventSubscribers::send
(subscription.rs lines 59-62): one clone of the message per subscriber. -/
def EventSubscribers.sentMessages {α β : Type} (receivers : List α) (message : β) : List β :=
  receivers.map (fun _ => message)

/-- EventSubscribers::send (src/scene/src/programs/subscription.rs lines
57-84): pair each subscriber index with its send outcome (the outcome of
each output-sink send is the environment parameter sendOk, since
output_sink.rs is not part of the modelled core), then walk the results in
reverse index order, removing erroring subscribers by index and flagging
success.  The sort_by on the index pairs (line 70) is the identity here
because join_all returns results in order. -/
def EventSubscribers.send {α : Type} (receivers : List α) (sendOk : Nat → Bool) : List α × Bool :=
  let results := (List.range receivers.length).map (fun idx => (idx, sendOk idx))
  results.reverse.foldl
    (fun acc (p : Nat × Bool) =>
      if p.2 then (acc.1, true) else (acc.1.eraseIdx p.1, acc.2))
    (receivers, false)

/-- Stated from the spec sentence: the subscribers kept by a broadcast are
exactly those (by position) whose send succeeded. -/
def specKeptSubscribers {α : Type} (sendOk : Nat → Bool) : List α → List α
  | [] => []
  | x :: xs =>
      if sendOk 0 then x :: specKeptSubscribers (fun i => sendOk (i + 1)) xs
      else specKeptSubscribers (fun i => sendOk (i + 1)) xs

/-- Stated from the spec sentence: at least one subscriber's send
succeeded. -/
def specAnySucceeded {α : Type} (sendOk : Nat → Bool) : List α → Bool
  | [] => false
  | _ :: xs => sendOk 0 || specAnySucceeded (fun i => sendOk (i + 1)) xs

theorem foldl_pairs {α : Type} (sendOk : Nat → Bool) (idxs : List Nat) (acc : List α × Bool) :
    (idxs.map (fun idx => (idx, sendOk idx))).foldl
        (fun acc (p : Nat × Bool) =>
          if p.2 then (acc.1, true) else (acc.1.eraseIdx p.1, acc.2)) acc
      = idxs.foldl (sendStep sendOk) acc := by
  induction idxs generalizing acc with
  | nil => rfl
  | cons i rest ih =>
    simp only [List.map_cons, List.foldl_cons, sendStep]
    exact ih _

theorem sendFold_shift {α : Type} (sendOk : Nat → Bool) (idxs : List Nat) (x : α)
    (xs : List α) (b : Bool) :
    (idxs.map Nat.succ).foldl (sendStep sendOk) (x :: xs, b)
      = ((x :: (idxs.foldl (sendStep (fun i => sendOk (i + 1))) (xs, b)).1),
         (idxs.foldl (sendStep (fun i => sendOk (i + 1))) (xs, b)).2) := by
  induction idxs generalizing xs b with
  | nil => rfl
  | cons i rest ih =>
    simp only [List.map_cons, List.foldl_cons, sendStep]
    by_cases hok : sendOk (i + 1) = true
    · simp only [hok, if_true]
      exact ih xs true
    · simp only [hok, if_false, List.eraseIdx_cons_succ]
      exact ih (xs.eraseIdx i) b

theorem sendFold_spec {α : Type} (l : List α) (sendOk : Nat → Bool) (b : Bool) :
    (List.range l.length).reverse.foldl (sendStep sendOk) (l, b)
      = (specKeptSubscribers sendOk l, b || specAnySucceeded sendOk l) := by
  induction l generalizing sendOk b with
  | nil => simp [specKeptSubscribers, specAnySucceeded]
  | cons x xs ih =>
    have h1 : List.range ((x :: xs).length) = 0 :: (List.range xs.length).map Nat.succ := by
      simp [List.range_succ_eq_map]
    rw [h1, List.reverse_cons, List.foldl_append, ← List.map_reverse, sendFold_shift, ih]
    simp only [List.foldl_cons, List.foldl_nil, sendStep]
    by_cases hok : sendOk 0 = true
    · simp [specKeptSubscribers, specAnySucceeded, hok]
    · simp [specKeptSubscribers, specAnySucceeded, hok, List.eraseIdx_cons_zero]

theorem specAnySucceeded_iff {α : Type} (sendOk : Nat → Bool) (l : List α) :
    specAnySucceeded sendOk l = true ↔ ∃ i, i < l.length ∧ sendOk i = true := by
  induction l generalizing sendOk with
  | nil => simp [specAnySucceeded]
  | cons x xs ih =>
    simp only [specAnySucceeded, Bool.or_eq_true, ih, List.length_cons]
    constructor
    · rintro (h0 | ⟨i, hi, hok⟩)
      · exact ⟨0, by omega, h0⟩
      · exact ⟨i + 1, by omega, hok⟩
    · rintro ⟨i, hi, hok⟩
      cases i with
      | zero => exact Or.inl hok
      | succ j => exact Or.inr ⟨j, by omega, hok⟩

/-- C5: a broadcast clones the message once per subscriber and sends them
all; the subscribers kept afterwards are exactly those whose send
succeeded (the descending-index removals preserve the indices of the
remaining removals), and the call returns true exactly when at least one
subscriber's send succeeded. -/
theorem event_subscribers_send_spec {α β : Type} (receivers : List α) (message : β)
    (sendOk : Nat → Bool) :
    (EventSubscribers.send receivers sendOk).1 = specKeptSubscribers sendOk receivers
    ∧ ((EventSubscribers.send receivers sendOk).2 = true
        ↔ ∃ i, i < receivers.length ∧ sendOk i = true)
    ∧ (EventSubscribers.sentMessages receivers message).length = receivers.length := by
  have hsend : EventSubscribers.send receivers sendOk
      = (specKeptSubscribers sendOk receivers, specAnySucceeded sendOk receivers) := by
    simp only [EventSubscribers.send]
    rw [← List.map_reverse, foldl_pairs, sendFold_spec]
    simp
  refine ⟨?_, ?_, ?_⟩
  · rw [hsend]
  · rw [hsend]
    exact specAnySucceeded_iff sendOk receivers
  · simp [EventSubscribers.sentMessages]

/-- parse_command_stream (src/pipe/src/commands/command_stream.rs lines
164-195), abstracted over the tokenizer and parser (external collaborators;
crate::parser is not part of the modelled core): the input is the sequence
of outcomes of the successive command_parse calls.  On Ok the parsed
command is yielded and the loop continues; on Err the parser is aborted and
the loop breaks (lines 183-191), ending the output stream. -/
def parse_command_stream {γ : Type} : List (Except Unit γ) → List γ
  | [] => []
  | Except.ok c :: rest => c :: parse_command_stream rest
  | Except.error _ :: _ => []

/-- C6 (code bug): a parse error ends the command stream entirely instead
of discarding input up to the next newline and resuming: with one malformed
command followed by one well-formed command, parse_command_stream emits
nothing, although the same well-formed parse alone is emitted.  The intent
the claim states is recorded in the source itself as the unimplemented
TODOs at command_stream.rs lines 187-189. -/
theorem parse_command_stream_stops_after_error :
    parse_command_stream [Except.error (), Except.ok 42] = ([] : List Nat)
    ∧ parse_command_stream [Except.ok 42] = [42] := by
  constructor <;> rfl

/-- deserializer_filter (src/scene/src/serialization.rs lines 124-147):
each SerializedMessage(value, type-id) maps to no output when the carried
type id differs from the filter's message type, otherwise to the successful
deserialization if any; the per-message streams are flattened.  TypeId is a
Nat; serde deserialization for the message type is the oracle parameter. -/
def deserializer_filter {V T : Type} (type_id : Nat) (deserialize : V → Option T)
    (messages : List (V × Nat)) : List T :=
  (messages.map (fun m => if m.2 ≠ type_id then none else deserialize m.1)).reduceOption

/-- C7: the deserializer filter emits a value exactly when the message's
type id equals the filter's message type id and deserialization succeeds;
wrong-type or failing messages are dropped without output. -/
theorem deserializer_filter_spec {V T : Type} (type_id : Nat) (deserialize : V → Option T)
    (v : V) (tid : Nat) (messages : List (V × Nat)) :
    deserializer_filter type_id deserialize [(v, tid)]
      = (if tid = type_id then (deserialize v).toList else [])
    ∧ (∀ t : T, deserializer_filter type_id deserialize [(v, tid)] = [t]
        ↔ (tid = type_id ∧ deserialize v = some t))
    ∧ deserializer_filter type_id deserialize messages
      = messages.filterMap (fun m => if m.2 = type_id then deserialize m.1 else none) := by
  refine ⟨?_, ?_, ?_⟩
  · by_cases htid : tid = type_id
    · cases hdes : deserialize v with
      | none => simp [deserializer_filter, htid, hdes, List.reduceOption]
      | some t0 => simp [deserializer_filter, htid, hdes, List.reduceOption]
    · simp [deserializer_filter, htid, List.reduceOption]
  · intro t
    by_cases htid : tid = type_id
    · cases hdes : deserialize v with
      | none => simp [deserializer_filter, htid, hdes, List.reduceOption]
      | some t0 => simp [deserializer_filter, htid, hdes, List.reduceOption, eq_comm]
    · simp [deserializer_filter, htid, List.reduceOption]
  · have hfun : (fun (m : V × Nat) => if m.2 ≠ type_id then none else deserialize m.1)
        = (fun (m : V × Nat) => if m.2 = type_id then deserialize m.1 else none) := by
      funext m
      by_cases hm : m.2 = type_id <;> simp [hm]
    simp only [deserializer_filter, hfun, List.reduceOption, List.filterMap_map]
    simp [Function.comp]

/-- The process-wide serialization filter state consulted by
serializer_filter (serialization.rs lines 31-34): TYPED_SERIALIZERS keyed
by the (source-type-id, target-type-id) pair (the stored conversion closure
is opaque here: only its presence is consulted), FILTERS_FOR_TYPE memoizing
the created filter handles, and the counter FilterHandle::for_filter
allocates fresh handles from. -/
structure SerializationState where
  typedSerializers : List ((Nat × Nat) × Unit)
  filtersForType : List ((Nat × Nat) × Nat)
  nextFilterHandle : Nat
deriving DecidableEq

/-- serializer_filter (src/scene/src/serialization.rs lines 264-300):
return the memoized filter handle for the (source, target) pair if one
exists; otherwise look up the installed typed serializer (error when
absent), create a fresh filter and memoize it. -/
def serializer_filter (message_type : Nat × Nat) (st : SerializationState) :
    Except String (Nat × SerializationState) :=
  match findValue st.filtersForType message_type with
  | some filter => Except.ok (filter, st)
  | none =>
      match findValue st.typedSerializers message_type with
      | none => Except.error "The requested serializers are not installed"
      | some _ =>
          let filter_handle := st.nextFilterHandle
          Except.ok (filter_handle,
            { st with
              filtersForType := (message_type, filter_handle) :: st.filtersForType,
              nextFilterHandle := st.nextFilterHandle + 1 })

/-- C8: serializer_filter is idempotent per (source-type-id,
target-type-id) pair: after a successful call returns handle h and state
st2, calling again on st2 returns the same handle h with the state
untouched (no new filter is created), because the pair is memoized in the
filters-for-type table. -/
theorem serializer_filter_idempotent (message_type : Nat × Nat) (st st2 : SerializationState)
    (filter : Nat) (hfirst : serializer_filter message_type st = Except.ok (filter, st2)) :
    serializer_filter message_type st2 = Except.ok (filter, st2)
    ∧ findValue st2.filtersForType message_type = some filter := by
  cases hmem : findValue st.filtersForType message_type with
  | some f =>
    simp only [serializer_filter, hmem, Except.ok.injEq, Prod.mk.injEq] at hfirst
    obtain ⟨hf, hst⟩ := hfirst
    subst hf
    subst hst
    constructor
    · simp [serializer_filter, hmem]
    · exact hmem
  | none =>
    cases hser : findValue st.typedSerializers message_type with
    | none =>
      simp only [serializer_filter, hmem, hser] at hfirst
      exact Except.noConfusion hfirst
    | some u =>
      simp only [serializer_filter, hmem, hser, Except.ok.injEq, Prod.mk.injEq] at hfirst
      obtain ⟨hf, hst⟩ := hfirst
      subst hf
      subst hst
      have hhead : findValue ((message_type, st.nextFilterHandle) :: st.filtersForType) message_type
          = some st.nextFilterHandle := by
        rw [findValue_cons, if_pos rfl]
      constructor
      · simp [serializer_filter, hhead]
      · exact hhead

/-- A state with the (1, 2) typed serializer installed and no filter
created yet. -/
def serializationStateInstalled : SerializationState := ⟨[((1, 2), ())], [], 0⟩

/-- The state after the first serializer_filter call for (1, 2) on
serializationStateInstalled. -/
def serializationStateAfterFirst : SerializationState := ⟨[((1, 2), ())], [((1, 2), 0)], 1⟩

/-- Closed witness for C8: the second call for (1, 2) returns the memoized
handle 0 and leaves the state unchanged. -/
theorem serializer_filter_idempotent_witness :
    serializer_filter (1, 2) serializationStateAfterFirst
      = Except.ok (0, serializationStateAfterFirst) :=
  (serializer_filter_idempotent (1, 2) serializationStateInstalled
    serializationStateAfterFirst 0 rfl).1

/-- StreamIdType (src/scene/src/stream_id.rs lines 43-50): a stream is
identified by its message type or by a specific target (the StreamTarget is
reduced to an id). -/
inductive StreamIdType where
  | MessageType : StreamIdType
  | Target : Nat → StreamIdType
deriving DecidableEq, Repr

/-- StreamId (src/scene/src/stream_id.rs lines 55-61); the two TypeIds are
Nats and the static type name a String. -/
structure StreamId where
  stream_id_type : StreamIdType
  message_type_name : String
  message_type : Nat
  input_stream_core_type : Nat
deriving DecidableEq, Repr

/-- StreamId::serialization_type_name (src/scene/src/serialization.rs
lines 416-418): the body is literally None; it reads no registry, so the
result is None whatever serializers or serializable types have been
installed. -/
def StreamId.serialization_type_name (_self : StreamId) : Option String :=
  none

/-- StreamId::with_serialization_type (src/scene/src/serialization.rs
lines 423-425): the body is literally None, independent of any installed
state. -/
def StreamId.with_serialization_type (_type_name : String) : Option StreamId :=
  none

/-- C10: for every StreamId and every type-name string,
serialization_type_name and with_serialization_type return None. -/
theorem stream_id_serialization_stubs :
    (∀ s : StreamId, s.serialization_type_name = none)
    ∧ (∀ type_name : String, StreamId.with_serialization_type type_name = none) :=
  ⟨fun _ => rfl, fun _ => rfl⟩
